import Mathlib

/-!
Shallow embedding of `src/lib/OpenEXRCore/compression.c`.

The file models the four codec adapter operations and the bound estimator of
that translation unit.  The external libdeflate engine is represented by
oracle structures: each engine entry point the adapter calls at most once is a
field whose value the theorems quantify over.  Machine `size_t` arithmetic is
modelled over `Nat` with an explicit width parameter `w`: wrapping operations
carry an explicit `% 2 ^ w`, while pointer offsets (whose overflow is
undefined behaviour in C, not wrapping) are kept as exact naturals.  Caller
buffers are modelled as functions `Nat → Nat` from byte offset to byte value,
and the optional `actual_out` out-parameter as an `Option Nat` holding the
cell contents.  `exr_uncompress_buffer_gdeflate` dereferences its
`actual_out` pointer unconditionally, so its model returns `Option CallOut`,
with `none` standing for the null-pointer crash (the call never returns).
-/

/-- EXR result codes returned by compression.c (the used subset of the
C `exr_result_t` enumeration). -/
inductive exr_result_t where
  | EXR_ERR_SUCCESS
  | EXR_ERR_OUT_OF_MEMORY
  | EXR_ERR_CORRUPT_CHUNK
  deriving DecidableEq

/-- Result codes of the libdeflate engine (`enum libdeflate_result`). -/
inductive libdeflate_result where
  | LIBDEFLATE_SUCCESS
  | LIBDEFLATE_BAD_DATA
  | LIBDEFLATE_SHORT_OUTPUT
  | LIBDEFLATE_INSUFFICIENT_SPACE
  deriving DecidableEq

/-- Resource events: successful allocation and release of an engine context. -/
inductive REvent where
  | alloc
  | free
  deriving DecidableEq

/-- Observable outcome of one adapter call: the returned result code, the
final contents of the optional `actual_out` cell (`none` when the caller
passed a null pointer), the final contents of the output buffer, and the
trace of context alloc/free events performed by the call. -/
structure CallOut where
  result : exr_result_t
  actual_out : Option Nat
  buf : Nat → Nat
  trace : List REvent

/-- Largest representable `size_t` value at width `w`. -/
def SIZE_MAX (w : Nat) : Nat := 2 ^ w - 1

/-- Translation of `internal_compress_pad_buffer_size` (compression.c lines
18-45).  `r` is the engine-reported native bound.  The C multiplication
`in_bytes * 130` is `size_t` arithmetic and wraps, hence the `% 2 ^ w`;
the guarded additions cannot wrap once their guards pass.  Note the source
checks the guard for the legacy `+ 100` but never performs that addition. -/
def internal_compress_pad_buffer_size (w in_bytes r : Nat) : Nat :=
  if SIZE_MAX w - 9 < r then SIZE_MAX w
  else if in_bytes * 130 % 2 ^ w < in_bytes then SIZE_MAX w
  else if SIZE_MAX w - 100 < in_bytes * 130 % 2 ^ w / 128 then SIZE_MAX w
  else if r + 9 < in_bytes * 130 % 2 ^ w / 128 then in_bytes * 130 % 2 ^ w / 128
  else r + 9

/-- Translation of `exr_compress_max_buffer_size` (compression.c lines 47-52);
`libdeflate_zlib_compress_bound` is the engine bound oracle. -/
def exr_compress_max_buffer_size (w : Nat)
    (libdeflate_zlib_compress_bound : Nat → Nat) (in_bytes : Nat) : Nat :=
  internal_compress_pad_buffer_size w in_bytes
    (libdeflate_zlib_compress_bound in_bytes)

/-- Translation of `exr_compress_gdeflate_max_buffer_size` (lines 54-61):
the engine bound oracle returns the native bound together with the adjusted
page count; the function returns (total bound, page count, nominal page
size). -/
def exr_compress_gdeflate_max_buffer_size (w : Nat)
    (libdeflate_gdeflate_compress_bound : Nat → Nat × Nat) (in_bytes : Nat) :
    Nat × Nat × Nat :=
  (internal_compress_pad_buffer_size w in_bytes
      (libdeflate_gdeflate_compress_bound in_bytes).1,
   (libdeflate_gdeflate_compress_bound in_bytes).2,
   internal_compress_pad_buffer_size w in_bytes
      (libdeflate_gdeflate_compress_bound in_bytes).1
     / (libdeflate_gdeflate_compress_bound in_bytes).2)

/-- The built-in default zip compression level (compression.c line 14). -/
def EXR_DEFAULT_ZLIB_COMPRESS_LEVEL : Int := 4

/-- Level resolution performed identically at compression.c lines 75-81 and
159-165.  `default_level` is the value the process-wide configuration
accessor `exr_get_default_zip_compression_level` writes (negative meaning
unset). -/
def resolve_level (default_level level : Int) : Int :=
  if level < 0 then
    if default_level < 0 then EXR_DEFAULT_ZLIB_COMPRESS_LEVEL else default_level
  else level

/-- Overlap-safe `memmove` semantics on an offset-addressed byte buffer:
the destination range takes the values the source range held before the
call. -/
def memmove (buf : Nat → Nat) (dst src n : Nat) : Nat → Nat :=
  fun a => if dst ≤ a ∧ a < dst + n then buf (src + (a - dst)) else buf a

/-- Writing the byte list `d` into the buffer starting at offset `off`. -/
def writeBytes (buf : Nat → Nat) (off : Nat) (d : List Nat) : Nat → Nat :=
  fun a => if off ≤ a ∧ a < off + d.length then d.getD (a - off) 0 else buf a

/-- Effect of the paged engine on the output buffer: page `i + m` of `data`
is written at offset `(i + m) * ps`, the start of its page descriptor
region. -/
def writePages (ps : Nat) : (Nat → Nat) → Nat → List (List Nat) → Nat → Nat
  | buf, _, [] => buf
  | buf, i, d :: rest => writePages ps (writeBytes buf (i * ps) d) (i + 1) rest

/-- The compaction loop of `exr_compress_buffer_gdeflate` (lines 193-198):
for each remaining page, starting at absolute page index `i`, move its used
bytes (`d.length` many, from the page region at offset `i * ps`) to `dest`,
then advance `dest` past them. -/
def compactPages (ps : Nat) : (Nat → Nat) → Nat → Nat → List (List Nat) → Nat → Nat
  | buf, _, _, [] => buf
  | buf, dest, i, d :: rest =>
      compactPages ps (memmove buf dest (i * ps) d.length) (dest + d.length) (i + 1) rest

/-- Whole compaction step (lines 192-198): `dest` starts right after page 0's
used bytes (page 0 sits at offset 0), and the loop runs over pages
`1 .. pc - 1`, whose used lengths the engine left in the descriptors. -/
def gdeflate_compact (ps pc : Nat) (buf : Nat → Nat) (data : List (List Nat)) :
    Nat → Nat :=
  if pc = 0 then buf
  else compactPages ps buf (data.getD 0 []).length 1 ((data.drop 1).take (pc - 1))

/-- Wrapping `size_t` subtraction `a - b` at width `w` (for operands below
`2 ^ w`). -/
def size_sub (w a b : Nat) : Nat := (2 ^ w + a - b) % 2 ^ w

/-- Page-descriptor construction of `exr_compress_buffer_gdeflate` (lines
172-181): page count 0 is normalized to 1, page `i` points at offset
`i * page_size`, every page but the last declares capacity `page_size`, and
the last declares the wrapping `size_t` difference
`out_bytes_avail - last_page * out_page_size`. -/
def gdeflate_build_pages (w out_bytes_avail out_page_count out_page_size : Nat) :
    List (Nat × Nat) :=
  (List.range (if out_page_count = 0 then 1 else out_page_count)).map fun i =>
    (i * out_page_size,
     if i < (if out_page_count = 0 then 1 else out_page_count) - 1 then
       out_page_size
     else
       size_sub w out_bytes_avail
         (((if out_page_count = 0 then 1 else out_page_count) - 1)
            * out_page_size % 2 ^ w))

/-- Oracle for the engine entry points used by `exr_compress_buffer`:
whether `libdeflate_alloc_compressor` succeeds at a given level, the size
returned by `libdeflate_zlib_compress`, and its effect on the output buffer.
The input buffer, its length and the output capacity are fixed inside the
oracle instance, since the adapter forwards them unchanged. -/
structure ZlibCompressEngine where
  allocOk : Int → Bool
  outsz : Int → Nat
  writeOut : Int → (Nat → Nat) → (Nat → Nat)

/-- Oracle for `exr_uncompress_buffer`: whether allocation succeeds, the
engine result code, the consumed-input count and produced-output count it
reports, and its effect on the output buffer. -/
structure ZlibDecompressEngine where
  allocOk : Bool
  res : libdeflate_result
  actual_in : Nat
  actual_out_val : Nat
  writeOut : (Nat → Nat) → (Nat → Nat)

/-- Oracle for `exr_compress_buffer_gdeflate`: allocation success, the total
size `libdeflate_gdeflate_compress` returns, and the per-page byte lists it
writes into the regions named by the supplied page descriptors (each list's
length is the used length the engine leaves in that descriptor). -/
structure GdeflateCompressEngine where
  allocOk : Int → Bool
  outsz : Int → Nat
  pageData : Int → List (Nat × Nat) → List (List Nat)

/-- Oracle for `exr_uncompress_buffer_gdeflate`: allocation success, engine
result code, the produced-output count written back through `actual_out`,
and the effect on the output buffer. -/
structure GdeflateDecompressEngine where
  allocOk : Bool
  res : libdeflate_result
  actual_out_val : Nat
  writeOut : (Nat → Nat) → (Nat → Nat)

/-- Translation of `exr_compress_buffer` (lines 65-105). -/
def exr_compress_buffer (eng : ZlibCompressEngine) (default_level level : Int)
    (buf : Nat → Nat) (actual_out : Option Nat) : CallOut :=
  if eng.allocOk (resolve_level default_level level) then
    if eng.outsz (resolve_level default_level level) ≠ 0 then
      { result := .EXR_ERR_SUCCESS,
        actual_out := actual_out.map (fun _ => eng.outsz (resolve_level default_level level)),
        buf := eng.writeOut (resolve_level default_level level) buf,
        trace := [.alloc, .free] }
    else
      { result := .EXR_ERR_OUT_OF_MEMORY,
        actual_out := actual_out,
        buf := eng.writeOut (resolve_level default_level level) buf,
        trace := [.alloc, .free] }
  else
    { result := .EXR_ERR_OUT_OF_MEMORY, actual_out := actual_out,
      buf := buf, trace := [] }

/-- Translation of `exr_uncompress_buffer` (lines 109-143): success requires
the engine success code and full consumption of the input. -/
def exr_uncompress_buffer (eng : ZlibDecompressEngine) (in_bytes : Nat)
    (buf : Nat → Nat) (actual_out : Option Nat) : CallOut :=
  if eng.allocOk then
    if eng.res = .LIBDEFLATE_SUCCESS then
      if in_bytes = eng.actual_in then
        { result := .EXR_ERR_SUCCESS,
          actual_out := actual_out.map (fun _ => eng.actual_out_val),
          buf := eng.writeOut buf, trace := [.alloc, .free] }
      else
        { result := .EXR_ERR_CORRUPT_CHUNK,
          actual_out := actual_out.map (fun _ => eng.actual_out_val),
          buf := eng.writeOut buf, trace := [.alloc, .free] }
    else
      { result := .EXR_ERR_CORRUPT_CHUNK,
        actual_out := actual_out.map (fun _ => eng.actual_out_val),
        buf := eng.writeOut buf, trace := [.alloc, .free] }
  else
    { result := .EXR_ERR_OUT_OF_MEMORY, actual_out := actual_out,
      buf := buf, trace := [] }

/-- Translation of `exr_compress_buffer_gdeflate` (lines 147-205): build the
page descriptors, let the engine fill the page regions, and on nonzero
engine output compact the pages into a contiguous block. -/
def exr_compress_buffer_gdeflate (w : Nat) (eng : GdeflateCompressEngine)
    (default_level level : Int) (buf : Nat → Nat)
    (out_bytes_avail out_page_count out_page_size : Nat)
    (actual_out : Option Nat) : CallOut :=
  if eng.allocOk (resolve_level default_level level) then
    if eng.outsz (resolve_level default_level level) ≠ 0 then
      { result := .EXR_ERR_SUCCESS,
        actual_out := actual_out.map (fun _ => eng.outsz (resolve_level default_level level)),
        buf := gdeflate_compact out_page_size
          (if out_page_count = 0 then 1 else out_page_count)
          (writePages out_page_size buf 0
            (eng.pageData (resolve_level default_level level)
              (gdeflate_build_pages w out_bytes_avail out_page_count out_page_size)))
          (eng.pageData (resolve_level default_level level)
            (gdeflate_build_pages w out_bytes_avail out_page_count out_page_size)),
        trace := [.alloc, .free] }
    else
      { result := .EXR_ERR_OUT_OF_MEMORY,
        actual_out := actual_out,
        buf := writePages out_page_size buf 0
          (eng.pageData (resolve_level default_level level)
            (gdeflate_build_pages w out_bytes_avail out_page_count out_page_size)),
        trace := [.alloc, .free] }
  else
    { result := .EXR_ERR_OUT_OF_MEMORY, actual_out := actual_out,
      buf := buf, trace := [] }

/-- Translation of `exr_uncompress_buffer_gdeflate` (lines 209-239).  The
source executes `*actual_out = out_bytes_avail;` with no null check right
after a successful allocation, so a call with a null `actual_out` crashes:
that execution is modelled as `none` (the call never returns). -/
def exr_uncompress_buffer_gdeflate (eng : GdeflateDecompressEngine)
    (buf : Nat → Nat) (out_bytes_avail : Nat) (actual_out : Option Nat) :
    Option CallOut :=
  if eng.allocOk then
    match actual_out with
    | none => none
    | some _ =>
        some { result := if eng.res = .LIBDEFLATE_SUCCESS then .EXR_ERR_SUCCESS
                         else .EXR_ERR_CORRUPT_CHUNK,
               actual_out := some eng.actual_out_val,
               buf := eng.writeOut buf,
               trace := [.alloc, .free] }
  else
    some { result := .EXR_ERR_OUT_OF_MEMORY, actual_out := actual_out,
           buf := buf, trace := [] }

/-! ### Helper lemmas -/

lemma resolve_level_of_nonneg (d l : Int) (h : 0 ≤ l) : resolve_level d l = l := by
  unfold resolve_level
  rw [if_neg (by omega)]

lemma resolve_level_nonneg (d l : Int) : 0 ≤ resolve_level d l := by
  unfold resolve_level EXR_DEFAULT_ZLIB_COMPRESS_LEVEL
  split_ifs <;> omega

lemma resolve_level_resolve (d2 d l : Int) :
    resolve_level d2 (resolve_level d l) = resolve_level d l :=
  resolve_level_of_nonneg d2 _ (resolve_level_nonneg d l)

/-! ### Claims C1 and C2: the bound estimator -/

/-- Claim C1 (code bug evaluation): at `in_bytes = 128`, `r = 0`, `w = 64`
the estimator returns `130 = max (0 + 9) (128 * 130 / 128)`, not the claimed
`max (0 + 9) (128 * 130 / 128 + 100) = 230`: the source checks the overflow
guard for the legacy `+ 100` but never performs that addition. -/
theorem internal_compress_pad_drops_legacy_add :
    internal_compress_pad_buffer_size 64 128 0 = 130
    ∧ 128 * 130 / 128 + 100 = 230 ∧ (130 : Nat) ≠ 230 := by decide

/-- Claim C2 (counterexample): at `w = 64` the input size `2 ^ 57` makes the
multiplication `in_bytes * 130` overflow, yet the estimator returns the
wrapped value `2 ^ 51`, not `SIZE_MAX`: the check `extra < in_bytes` misses
overflows whose wrapped product is still at least `in_bytes`. -/
theorem internal_compress_pad_mul_overflow_undetected :
    2 ^ 64 ≤ 2 ^ 57 * 130
    ∧ internal_compress_pad_buffer_size 64 (2 ^ 57) 0 = 2 ^ 51
    ∧ 2 ^ 51 ≠ SIZE_MAX 64 := by decide

/-- Claim C2 (amended): the guarded steps of the estimator saturate to
`SIZE_MAX` exactly when their guards fire: when `r + 9` would overflow, when
the wrapped product `in_bytes * 130 % 2 ^ w` falls below `in_bytes`, and when
the quotient exceeds `SIZE_MAX - 100`; in particular at the maximal input
size `SIZE_MAX w` the wrapped product does fall below the input, so the
estimator returns the saturation value rather than wrapping to a small
number. -/
theorem internal_compress_pad_saturation (w n r : Nat) (hw : 8 ≤ w) :
    (SIZE_MAX w - 9 < r → internal_compress_pad_buffer_size w n r = SIZE_MAX w)
    ∧ (n * 130 % 2 ^ w < n → internal_compress_pad_buffer_size w n r = SIZE_MAX w)
    ∧ (SIZE_MAX w - 100 < n * 130 % 2 ^ w / 128 →
        internal_compress_pad_buffer_size w n r = SIZE_MAX w)
    ∧ internal_compress_pad_buffer_size w (SIZE_MAX w) r = SIZE_MAX w := by
  have hP : 256 ≤ 2 ^ w := by
    calc (256 : Nat) = 2 ^ 8 := by norm_num
    _ ≤ 2 ^ w := Nat.pow_le_pow_right (by norm_num) hw
  refine ⟨?_, ?_, ?_, ?_⟩
  · intro h
    unfold internal_compress_pad_buffer_size
    rw [if_pos h]
  · intro h
    unfold internal_compress_pad_buffer_size
    by_cases h1 : SIZE_MAX w - 9 < r
    · rw [if_pos h1]
    · rw [if_neg h1, if_pos h]
  · intro h
    unfold internal_compress_pad_buffer_size
    by_cases h1 : SIZE_MAX w - 9 < r
    · rw [if_pos h1]
    · rw [if_neg h1]
      by_cases h2 : n * 130 % 2 ^ w < n
      · rw [if_pos h2]
      · rw [if_neg h2, if_pos h]
  · have hmod : SIZE_MAX w * 130 % 2 ^ w = 2 ^ w - 130 := by
      have he : SIZE_MAX w * 130 = (2 ^ w - 130) + 129 * 2 ^ w := by
        unfold SIZE_MAX
        omega
      rw [he, Nat.add_mul_mod_self_right, Nat.mod_eq_of_lt (by omega)]
    unfold internal_compress_pad_buffer_size
    by_cases h1 : SIZE_MAX w - 9 < r
    · rw [if_pos h1]
    · rw [if_neg h1, if_pos (by rw [hmod]; unfold SIZE_MAX; omega)]

/-- Claim C2 (witness): at width 8 the estimator saturates on the maximal
input size. -/
theorem internal_compress_pad_saturation_witness :
    internal_compress_pad_buffer_size 8 (SIZE_MAX 8) 0 = SIZE_MAX 8 :=
  (internal_compress_pad_saturation 8 (SIZE_MAX 8) 0 (by norm_num)).2.2.2

/-! ### Claim C3: strict full-consumption check of exr_uncompress_buffer -/

/-- Claim C3: once the decompressor context is allocated, the call returns
`EXR_ERR_SUCCESS` exactly when the engine reports `LIBDEFLATE_SUCCESS` and
its consumed-input count equals `in_bytes`; when the engine succeeds but
consumed fewer bytes (trailing garbage), the call returns
`EXR_ERR_CORRUPT_CHUNK`. -/
theorem exr_uncompress_buffer_success_iff (eng : ZlibDecompressEngine)
    (in_bytes : Nat) (buf : Nat → Nat) (actual_out : Option Nat)
    (halloc : eng.allocOk = true) :
    ((exr_uncompress_buffer eng in_bytes buf actual_out).result = .EXR_ERR_SUCCESS ↔
      eng.res = .LIBDEFLATE_SUCCESS ∧ eng.actual_in = in_bytes)
    ∧ (eng.res = .LIBDEFLATE_SUCCESS → eng.actual_in < in_bytes →
        (exr_uncompress_buffer eng in_bytes buf actual_out).result
          = .EXR_ERR_CORRUPT_CHUNK) := by
  by_cases hres : eng.res = .LIBDEFLATE_SUCCESS
  · by_cases heq : in_bytes = eng.actual_in
    · constructor
      · simp [exr_uncompress_buffer, halloc, hres, heq]
      · intro _ hlt
        omega
    · constructor
      · simp [exr_uncompress_buffer, halloc, hres, heq]
        omega
      · intro _ _
        simp [exr_uncompress_buffer, halloc, hres, heq]
  · constructor
    · simp [exr_uncompress_buffer, halloc, hres]
    · intro hres2
      exact absurd hres2 hres

/-- Claim C3 (witness): engine success with 3 of 5 input bytes consumed
yields `EXR_ERR_CORRUPT_CHUNK`. -/
theorem exr_uncompress_buffer_success_iff_witness :
    (exr_uncompress_buffer ⟨true, .LIBDEFLATE_SUCCESS, 3, 7, id⟩ 5
        (fun _ => 0) none).result = .EXR_ERR_CORRUPT_CHUNK :=
  (exr_uncompress_buffer_success_iff ⟨true, .LIBDEFLATE_SUCCESS, 3, 7, id⟩ 5
      (fun _ => 0) none rfl).2 rfl (by norm_num)

/-! ### Claim C6: level resolution -/

/-- Claim C6: the effective level is the requested one when nonnegative, the
configured default when the request is negative and the default is not, and
the built-in default when both are negative; both compression entry points
behave as if called with the resolved level. -/
theorem resolve_level_spec (d d2 l : Int) :
    (0 ≤ l → resolve_level d l = l)
    ∧ (l < 0 → 0 ≤ d → resolve_level d l = d)
    ∧ (l < 0 → d < 0 → resolve_level d l = EXR_DEFAULT_ZLIB_COMPRESS_LEVEL)
    ∧ (∀ (eng : ZlibCompressEngine) (buf : Nat → Nat) (ao : Option Nat),
        exr_compress_buffer eng d l buf ao
          = exr_compress_buffer eng d2 (resolve_level d l) buf ao)
    ∧ (∀ (w : Nat) (eng : GdeflateCompressEngine) (buf : Nat → Nat)
        (cap pc ps : Nat) (ao : Option Nat),
        exr_compress_buffer_gdeflate w eng d l buf cap pc ps ao
          = exr_compress_buffer_gdeflate w eng d2 (resolve_level d l) buf cap pc ps ao) := by
  refine ⟨fun h => resolve_level_of_nonneg d l h, ?_, ?_, ?_, ?_⟩
  · intro h1 h2
    unfold resolve_level
    rw [if_pos h1, if_neg (by omega)]
  · intro h1 h2
    unfold resolve_level
    rw [if_pos h1, if_pos h2]
  · intro eng buf ao
    unfold exr_compress_buffer
    rw [resolve_level_resolve]
  · intro w eng buf cap pc ps ao
    unfold exr_compress_buffer_gdeflate
    rw [resolve_level_resolve]

/-- Claim C6 (witness): a negative request with a negative configured default
resolves to the built-in default level. -/
theorem resolve_level_spec_witness :
    resolve_level (-3) (-1) = EXR_DEFAULT_ZLIB_COMPRESS_LEVEL :=
  (resolve_level_spec (-3) 0 (-1)).2.2.1 (by norm_num) (by norm_num)

/-! ### Claims C4 and C10: page-descriptor geometry -/

lemma range_map_getD {α : Type} (f : Nat → α) (n i : Nat) (d : α) (h : i < n) :
    ((List.range n).map f).getD i d = f i := by
  rw [List.getD_eq_getElem?_getD, List.getElem?_map, List.getElem?_range h]
  rfl

/-- Claim C4: the descriptor array built by `exr_compress_buffer_gdeflate`
has the normalized page count as its length, a zero page count yields one
page spanning the whole output, page `i` points at offset `i * page_size`,
every page but the last declares capacity `page_size`, and (whenever the
`size_t` subtraction does not wrap) the last page declares capacity
`out_bytes_avail - (page_count - 1) * page_size`. -/
theorem gdeflate_build_pages_spec (w cap pcRaw ps : Nat) (hcapw : cap < 2 ^ w) :
    (gdeflate_build_pages w cap pcRaw ps).length = (if pcRaw = 0 then 1 else pcRaw)
    ∧ (pcRaw = 0 → gdeflate_build_pages w cap pcRaw ps = [(0, cap)])
    ∧ (∀ i, i < (if pcRaw = 0 then 1 else pcRaw) →
        ((gdeflate_build_pages w cap pcRaw ps).getD i (0, 0)).1 = i * ps)
    ∧ (∀ i, i + 1 < (if pcRaw = 0 then 1 else pcRaw) →
        ((gdeflate_build_pages w cap pcRaw ps).getD i (0, 0)).2 = ps)
    ∧ (((if pcRaw = 0 then 1 else pcRaw) - 1) * ps ≤ cap →
        ((gdeflate_build_pages w cap pcRaw ps).getD
            ((if pcRaw = 0 then 1 else pcRaw) - 1) (0, 0)).2
          = cap - ((if pcRaw = 0 then 1 else pcRaw) - 1) * ps) := by
  have hpcn : 1 ≤ (if pcRaw = 0 then 1 else pcRaw) := by
    split_ifs with h <;> omega
  refine ⟨?_, ?_, ?_, ?_, ?_⟩
  · simp [gdeflate_build_pages]
  · intro h0
    have hs : size_sub w cap 0 = cap := by
      unfold size_sub
      rw [Nat.sub_zero, Nat.add_mod_left, Nat.mod_eq_of_lt hcapw]
    subst h0
    simp [gdeflate_build_pages, List.range_succ, hs]
  · intro i hi
    unfold gdeflate_build_pages
    rw [range_map_getD _ _ _ _ hi]
  · intro i hi
    unfold gdeflate_build_pages
    rw [range_map_getD _ _ _ _ (by omega)]
    exact if_pos (by omega)
  · intro hle
    unfold gdeflate_build_pages
    rw [range_map_getD _ _ _ _ (by omega)]
    have hx : ((if pcRaw = 0 then 1 else pcRaw) - 1) * ps % 2 ^ w
        = ((if pcRaw = 0 then 1 else pcRaw) - 1) * ps :=
      Nat.mod_eq_of_lt (lt_of_le_of_lt hle hcapw)
    rw [if_neg (lt_irrefl _), size_sub, hx]
    have he : 2 ^ w + cap - ((if pcRaw = 0 then 1 else pcRaw) - 1) * ps
        = (cap - ((if pcRaw = 0 then 1 else pcRaw) - 1) * ps) + 2 ^ w := by
      omega
    rw [he, Nat.add_mod_right, Nat.mod_eq_of_lt (by omega)]

/-- Claim C4 (witness): 100 bytes of capacity split into 3 pages of nominal
size 10 leave the last page with declared capacity 80. -/
theorem gdeflate_build_pages_spec_witness :
    ((gdeflate_build_pages 8 100 3 10).getD 2 (0, 0)).2 = 80 := by
  have h := (gdeflate_build_pages_spec 8 100 3 10 (by norm_num)).2.2.2.2 (by norm_num)
  simpa using h

/-- Claim C10: when `out_bytes_avail < (page_count - 1) * page_size`, the
unchecked `size_t` subtraction producing the last page's declared capacity
wraps modulo `2 ^ w`, handing the engine a capacity that exceeds the entire
output capacity. -/
theorem gdeflate_build_pages_wrap (w cap pcRaw ps : Nat)
    (hpc : 1 ≤ pcRaw) (hcapw : cap < 2 ^ w)
    (hmul : (pcRaw - 1) * ps < 2 ^ w) (hwrap : cap < (pcRaw - 1) * ps) :
    ((gdeflate_build_pages w cap pcRaw ps).getD (pcRaw - 1) (0, 0)).2
        = 2 ^ w - ((pcRaw - 1) * ps - cap)
    ∧ cap < ((gdeflate_build_pages w cap pcRaw ps).getD (pcRaw - 1) (0, 0)).2 := by
  have hpc0 : ¬ pcRaw = 0 := by omega
  have hmain : ((gdeflate_build_pages w cap pcRaw ps).getD (pcRaw - 1) (0, 0)).2
      = 2 ^ w - ((pcRaw - 1) * ps - cap) := by
    unfold gdeflate_build_pages
    rw [if_neg hpc0, range_map_getD _ _ _ _ (by omega)]
    rw [if_neg (lt_irrefl _), size_sub, Nat.mod_eq_of_lt hmul,
      Nat.mod_eq_of_lt (by omega)]
    omega
  exact ⟨hmain, by rw [hmain]; omega⟩

/-- Claim C10 (witness): capacity 10 with 3 pages of nominal size 7 wraps the
last page's declared capacity to 252 at width 8, far above the whole
capacity. -/
theorem gdeflate_build_pages_wrap_witness :
    10 < ((gdeflate_build_pages 8 10 3 7).getD (3 - 1) (0, 0)).2 :=
  (gdeflate_build_pages_wrap 8 10 3 7 (by norm_num) (by norm_num)
    (by norm_num) (by norm_num)).2

/-! ### Buffer lemmas for the paged codec -/

lemma memmove_inside (buf : Nat → Nat) (dst src n a : Nat)
    (h1 : dst ≤ a) (h2 : a < dst + n) :
    memmove buf dst src n a = buf (src + (a - dst)) := by
  unfold memmove
  rw [if_pos ⟨h1, h2⟩]

lemma memmove_outside (buf : Nat → Nat) (dst src n a : Nat)
    (h : a < dst ∨ dst + n ≤ a) :
    memmove buf dst src n a = buf a := by
  unfold memmove
  rw [if_neg (by omega)]

lemma writeBytes_inside (buf : Nat → Nat) (off : Nat) (d : List Nat) (a : Nat)
    (h1 : off ≤ a) (h2 : a < off + d.length) :
    writeBytes buf off d a = d.getD (a - off) 0 := by
  unfold writeBytes
  rw [if_pos ⟨h1, h2⟩]

lemma writeBytes_outside (buf : Nat → Nat) (off : Nat) (d : List Nat) (a : Nat)
    (h : a < off ∨ off + d.length ≤ a) :
    writeBytes buf off d a = buf a := by
  unfold writeBytes
  rw [if_neg (by omega)]

lemma writePages_below (ps : Nat) :
    ∀ (data : List (List Nat)) (buf : Nat → Nat) (i a : Nat),
      a < i * ps → writePages ps buf i data a = buf a := by
  intro data
  induction data with
  | nil =>
      intro buf i a _
      rfl
  | cons d rest ih =>
      intro buf i a ha
      show writePages ps (writeBytes buf (i * ps) d) (i + 1) rest a = buf a
      have hstep : a < (i + 1) * ps := by
        rw [Nat.succ_mul]
        omega
      rw [ih (writeBytes buf (i * ps) d) (i + 1) a hstep]
      exact writeBytes_outside buf (i * ps) d a (Or.inl ha)

lemma writePages_read (ps : Nat) :
    ∀ (data : List (List Nat)) (buf : Nat → Nat) (i : Nat),
      (∀ m, m + 1 < data.length → (data.getD m []).length ≤ ps) →
      ∀ j k, j < data.length → k < (data.getD j []).length →
        writePages ps buf i data ((i + j) * ps + k) = (data.getD j []).getD k 0 := by
  intro data
  induction data with
  | nil =>
      intro buf i _ j k hj _
      exact absurd hj (by simp)
  | cons d rest ih =>
      intro buf i hcap j k hj hk
      cases j with
      | zero =>
          have hkd : k < d.length := by simpa using hk
          show writePages ps (writeBytes buf (i * ps) d) (i + 1) rest (i * ps + k)
              = d.getD k 0
          have hval : writeBytes buf (i * ps) d (i * ps + k) = d.getD k 0 := by
            rw [writeBytes_inside buf (i * ps) d (i * ps + k)
                (Nat.le_add_right _ _) (by omega)]
            rw [show i * ps + k - i * ps = k from by omega]
          cases rest with
          | nil =>
              exact hval
          | cons e rest2 =>
              have hdp : d.length ≤ ps := by
                have := hcap 0 (by simp only [List.length_cons]; omega)
                simpa using this
              have hlow : i * ps + k < (i + 1) * ps := by
                rw [Nat.succ_mul]
                omega
              rw [writePages_below ps (e :: rest2) _ (i + 1) (i * ps + k) hlow]
              exact hval
      | succ j2 =>
          show writePages ps (writeBytes buf (i * ps) d) (i + 1) rest ((i + (j2 + 1)) * ps + k)
              = ((d :: rest).getD (j2 + 1) []).getD k 0
          rw [show i + (j2 + 1) = (i + 1) + j2 from by omega]
          have hj2 : j2 < rest.length := by
            simpa using hj
          have hk2 : k < (rest.getD j2 []).length := by
            simpa [List.getD_cons_succ] using hk
          have hcap2 : ∀ m, m + 1 < rest.length → (rest.getD m []).length ≤ ps := by
            intro m hm
            have := hcap (m + 1) (by simp only [List.length_cons]; omega)
            simpa [List.getD_cons_succ] using this
          rw [ih (writeBytes buf (i * ps) d) (i + 1) hcap2 j2 k hj2 hk2]
          simp [List.getD_cons_succ]

lemma compactPages_spec (ps : Nat) :
    ∀ (pages : List (List Nat)) (buf : Nat → Nat) (dest i : Nat),
      dest ≤ i * ps →
      (∀ m, m + 1 < pages.length → (pages.getD m []).length ≤ ps) →
      (∀ a, a < dest → compactPages ps buf dest i pages a = buf a)
      ∧ (∀ m k, m < pages.length → k < (pages.getD m []).length →
          compactPages ps buf dest i pages
              (dest + ((pages.map List.length).take m).sum + k)
            = buf ((i + m) * ps + k)) := by
  intro pages
  induction pages with
  | nil =>
      intro buf dest i _ _
      exact ⟨fun a _ => rfl, fun m k hm _ => absurd hm (by simp)⟩
  | cons d rest ih =>
      intro buf dest i hdest hcap
      cases rest with
      | nil =>
          refine ⟨?_, ?_⟩
          · intro a ha
            show memmove buf dest (i * ps) d.length a = buf a
            exact memmove_outside _ _ _ _ _ (Or.inl ha)
          · intro m k hm hk
            have hm0 : m = 0 := by
              simp only [List.length_cons, List.length_nil] at hm
              omega
            subst hm0
            have hkd : k < d.length := by simpa using hk
            show memmove buf dest (i * ps) d.length (dest + k) = buf (i * ps + k)
            rw [memmove_inside buf dest (i * ps) d.length (dest + k)
                (by omega) (by omega)]
            rw [show dest + k - dest = k from by omega]
      | cons e rest2 =>
          have hd : d.length ≤ ps := by
            have := hcap 0 (by simp only [List.length_cons]; omega)
            simpa using this
          have hdest2 : dest + d.length ≤ (i + 1) * ps := by
            rw [Nat.succ_mul]
            omega
          have hcap2 : ∀ m, m + 1 < (e :: rest2).length →
              ((e :: rest2).getD m []).length ≤ ps := by
            intro m hm
            have := hcap (m + 1) (by simp only [List.length_cons] at hm ⊢; omega)
            simpa [List.getD_cons_succ] using this
          obtain ⟨ihA, ihB⟩ := ih (memmove buf dest (i * ps) d.length)
            (dest + d.length) (i + 1) hdest2 hcap2
          refine ⟨?_, ?_⟩
          · intro a ha
            show compactPages ps (memmove buf dest (i * ps) d.length)
                (dest + d.length) (i + 1) (e :: rest2) a = buf a
            rw [ihA a (by omega)]
            exact memmove_outside _ _ _ _ _ (Or.inl ha)
          · intro m k hm hk
            cases m with
            | zero =>
                have hkd : k < d.length := by simpa using hk
                show compactPages ps (memmove buf dest (i * ps) d.length)
                    (dest + d.length) (i + 1) (e :: rest2) (dest + k)
                  = buf (i * ps + k)
                rw [ihA (dest + k) (by omega)]
                rw [memmove_inside buf dest (i * ps) d.length (dest + k)
                    (by omega) (by omega)]
                rw [show dest + k - dest = k from by omega]
            | succ m2 =>
                have hm2 : m2 < (e :: rest2).length := by
                  simpa using hm
                have hk2 : k < ((e :: rest2).getD m2 []).length := by
                  simpa [List.getD_cons_succ] using hk
                show compactPages ps (memmove buf dest (i * ps) d.length)
                    (dest + d.length) (i + 1) (e :: rest2)
                    (dest + (((d :: e :: rest2).map List.length).take (m2 + 1)).sum + k)
                  = buf ((i + (m2 + 1)) * ps + k)
                rw [show i + (m2 + 1) = i + 1 + m2 from by omega]
                have haddr : dest + (((d :: e :: rest2).map List.length).take (m2 + 1)).sum + k
                    = (dest + d.length)
                      + (((e :: rest2).map List.length).take m2).sum + k := by
                  simp only [List.map_cons, List.take_succ_cons, List.sum_cons]
                  omega
                rw [haddr, ihB m2 k hm2 hk2]
                have hmono : (i + 1) * ps ≤ (i + 1 + m2) * ps :=
                  Nat.mul_le_mul (by omega) (le_refl ps)
                exact memmove_outside _ _ _ _ _ (Or.inr (by omega))

/-! ### Claim C5: compaction of the page-split output -/

/-- Claim C5: after a successful page-split compression (engine context
allocated, engine wrote `data` into the page regions respecting the declared
capacities, and reported the nonzero total `(data.map List.length).sum`),
the call succeeds, reports that total through `actual_out`, and the output
buffer holds the pages' used bytes gap-free: byte `k` of page `m` ends up at
offset `sum of used lengths of pages before m` plus `k`.  With a single page
the compaction leaves the engine-written buffer untouched. -/
theorem exr_compress_buffer_gdeflate_compacts (w : Nat)
    (eng : GdeflateCompressEngine) (d l : Int) (buf : Nat → Nat)
    (cap pcRaw ps ao : Nat) (data : List (List Nat))
    (halloc : eng.allocOk (resolve_level d l) = true)
    (hdata : eng.pageData (resolve_level d l)
        (gdeflate_build_pages w cap pcRaw ps) = data)
    (hlen : data.length = (if pcRaw = 0 then 1 else pcRaw))
    (hcap : ∀ m, m + 1 < data.length → (data.getD m []).length ≤ ps)
    (hnz : (data.map List.length).sum ≠ 0)
    (hsum : eng.outsz (resolve_level d l) = (data.map List.length).sum) :
    (exr_compress_buffer_gdeflate w eng d l buf cap pcRaw ps (some ao)).result
        = .EXR_ERR_SUCCESS
    ∧ (exr_compress_buffer_gdeflate w eng d l buf cap pcRaw ps (some ao)).actual_out
        = some ((data.map List.length).sum)
    ∧ (∀ m k, m < data.length → k < (data.getD m []).length →
        (exr_compress_buffer_gdeflate w eng d l buf cap pcRaw ps (some ao)).buf
            (((data.map List.length).take m).sum + k)
          = (data.getD m []).getD k 0)
    ∧ (pcRaw = 1 →
        (exr_compress_buffer_gdeflate w eng d l buf cap pcRaw ps (some ao)).buf
          = writePages ps buf 0 data) := by
  have hcall : exr_compress_buffer_gdeflate w eng d l buf cap pcRaw ps (some ao)
      = { result := .EXR_ERR_SUCCESS,
          actual_out := some ((data.map List.length).sum),
          buf := gdeflate_compact ps (if pcRaw = 0 then 1 else pcRaw)
                   (writePages ps buf 0 data) data,
          trace := [.alloc, .free] } := by
    unfold exr_compress_buffer_gdeflate
    rw [hdata, hsum, halloc, if_pos rfl, if_pos hnz]
    rfl
  refine ⟨by rw [hcall], by rw [hcall], ?_, ?_⟩
  · intro m k hm hk
    rw [hcall]
    have hpcn : 1 ≤ (if pcRaw = 0 then 1 else pcRaw) := by
      split_ifs <;> omega
    have htake : (data.drop 1).take ((if pcRaw = 0 then 1 else pcRaw) - 1)
        = data.drop 1 := by
      have hL : (data.drop 1).length = (if pcRaw = 0 then 1 else pcRaw) - 1 := by
        simp [List.length_drop, hlen]
      rw [← hL, List.take_length]
    show gdeflate_compact ps (if pcRaw = 0 then 1 else pcRaw)
        (writePages ps buf 0 data) data (((data.map List.length).take m).sum + k)
      = (data.getD m []).getD k 0
    unfold gdeflate_compact
    rw [if_neg (by omega), htake]
    cases data with
    | nil =>
        exact absurd hm (by simp)
    | cons d0 tail =>
        cases tail with
        | nil =>
            have hm0 : m = 0 := by
              simp only [List.length_cons, List.length_nil] at hm
              omega
            subst hm0
            show writePages ps buf 0 [d0] (0 + k)
                = ((d0 :: ([] : List (List Nat))).getD 0 []).getD k 0
            have hW := writePages_read ps [d0] buf 0 hcap 0 k (by simp) hk
            rw [show (0 + 0) * ps + k = 0 + k from by omega] at hW
            exact hW
        | cons e tail2 =>
            have hd0 : d0.length ≤ ps := by
              have := hcap 0 (by simp only [List.length_cons]; omega)
              simpa using this
            have hcapT : ∀ m2, m2 + 1 < (e :: tail2).length →
                ((e :: tail2).getD m2 []).length ≤ ps := by
              intro m2 hm2
              have := hcap (m2 + 1)
                (by simp only [List.length_cons] at hm2 ⊢; omega)
              simpa [List.getD_cons_succ] using this
            obtain ⟨ihA, ihB⟩ := compactPages_spec ps (e :: tail2)
              (writePages ps buf 0 (d0 :: e :: tail2)) d0.length 1
              (by rw [Nat.one_mul]; exact hd0) hcapT
            cases m with
            | zero =>
                have hk0 : k < d0.length := by simpa using hk
                show compactPages ps (writePages ps buf 0 (d0 :: e :: tail2))
                    d0.length 1 (e :: tail2) (0 + k)
                  = ((d0 :: e :: tail2).getD 0 []).getD k 0
                rw [ihA (0 + k) (by omega)]
                have hW := writePages_read ps (d0 :: e :: tail2) buf 0 hcap 0 k
                  (by simp) hk
                rw [show (0 + 0) * ps + k = 0 + k from by omega] at hW
                exact hW
            | succ m2 =>
                have hm2 : m2 < (e :: tail2).length := by simpa using hm
                have hk2 : k < ((e :: tail2).getD m2 []).length := by
                  simpa [List.getD_cons_succ] using hk
                have haddr : (((d0 :: e :: tail2).map List.length).take (m2 + 1)).sum + k
                    = d0.length + (((e :: tail2).map List.length).take m2).sum + k := by
                  simp only [List.map_cons, List.take_succ_cons, List.sum_cons]
                show compactPages ps (writePages ps buf 0 (d0 :: e :: tail2))
                    d0.length 1 (e :: tail2)
                    ((((d0 :: e :: tail2).map List.length).take (m2 + 1)).sum + k)
                  = ((d0 :: e :: tail2).getD (m2 + 1) []).getD k 0
                rw [haddr, ihB m2 k hm2 hk2]
                have hW := writePages_read ps (d0 :: e :: tail2) buf 0 hcap
                  (m2 + 1) k hm hk
                rw [show 0 + (m2 + 1) = 1 + m2 from by omega] at hW
                exact hW
  · intro hpc1
    subst hpc1
    rw [hcall]
    rfl

/-- Claim C5 (witness): two pages of used lengths 3 and 2 written at nominal
page size 4 compact so that byte 1 of page 1 lands at offset 3 + 1 = 4. -/
theorem exr_compress_buffer_gdeflate_compacts_witness :
    (exr_compress_buffer_gdeflate 16
        ⟨fun _ => true, fun _ => 5, fun _ _ => [[7, 7, 7], [5, 5]]⟩
        0 3 (fun _ => 0) 8 2 4 (some 0)).buf 4 = 5 := by
  have h := (exr_compress_buffer_gdeflate_compacts 16
      ⟨fun _ => true, fun _ => 5, fun _ _ => [[7, 7, 7], [5, 5]]⟩
      0 3 (fun _ => 0) 8 2 4 0 [[7, 7, 7], [5, 5]]
      rfl rfl (by decide)
      (by
        intro m hm
        simp only [List.length_cons, List.length_nil] at hm
        have hm0 : m = 0 := by omega
        subst hm0
        decide)
      (by decide) (by decide)).2.2.1 1 1 (by decide) (by decide)
  simpa using h

/-! ### Claim C7: zero engine output is OutOfMemory -/

/-- Claim C7: with the compressor context allocated, both compression entry
points return `EXR_ERR_OUT_OF_MEMORY` exactly when the engine reports a zero
output size, and `EXR_ERR_SUCCESS` whenever it reports a nonzero one. -/
theorem engine_zero_output_is_oom (engC : ZlibCompressEngine)
    (engG : GdeflateCompressEngine) (w : Nat) (d l : Int)
    (buf bufg : Nat → Nat) (cap pc ps : Nat) (ao aog : Option Nat)
    (hC : engC.allocOk (resolve_level d l) = true)
    (hG : engG.allocOk (resolve_level d l) = true) :
    ((engC.outsz (resolve_level d l) = 0 →
        (exr_compress_buffer engC d l buf ao).result = .EXR_ERR_OUT_OF_MEMORY)
      ∧ (engC.outsz (resolve_level d l) ≠ 0 →
        (exr_compress_buffer engC d l buf ao).result = .EXR_ERR_SUCCESS))
    ∧ ((engG.outsz (resolve_level d l) = 0 →
        (exr_compress_buffer_gdeflate w engG d l bufg cap pc ps aog).result
          = .EXR_ERR_OUT_OF_MEMORY)
      ∧ (engG.outsz (resolve_level d l) ≠ 0 →
        (exr_compress_buffer_gdeflate w engG d l bufg cap pc ps aog).result
          = .EXR_ERR_SUCCESS)) := by
  refine ⟨⟨?_, ?_⟩, ⟨?_, ?_⟩⟩
  · intro h0
    unfold exr_compress_buffer
    rw [hC, if_pos rfl, h0, if_neg (by omega)]
  · intro h0
    unfold exr_compress_buffer
    rw [hC, if_pos rfl, if_pos h0]
  · intro h0
    unfold exr_compress_buffer_gdeflate
    rw [hG, if_pos rfl, h0, if_neg (by omega)]
  · intro h0
    unfold exr_compress_buffer_gdeflate
    rw [hG, if_pos rfl, if_pos h0]

/-- Claim C7 (witness): a zero-output engine makes the single-stream call
report OutOfMemory, and a 3-byte-output paged engine makes the paged call
succeed. -/
theorem engine_zero_output_is_oom_witness :
    (exr_compress_buffer ⟨fun _ => true, fun _ => 0, fun _ b => b⟩
        (-1) (-1) (fun _ => 0) none).result = .EXR_ERR_OUT_OF_MEMORY
    ∧ (exr_compress_buffer_gdeflate 8
        ⟨fun _ => true, fun _ => 3, fun _ _ => [[1, 2, 3]]⟩
        (-1) (-1) (fun _ => 0) 10 1 10 none).result = .EXR_ERR_SUCCESS :=
  ⟨(engine_zero_output_is_oom ⟨fun _ => true, fun _ => 0, fun _ b => b⟩
      ⟨fun _ => true, fun _ => 3, fun _ _ => [[1, 2, 3]]⟩ 8 (-1) (-1)
      (fun _ => 0) (fun _ => 0) 10 1 10 none none rfl rfl).1.1 rfl,
   (engine_zero_output_is_oom ⟨fun _ => true, fun _ => 0, fun _ b => b⟩
      ⟨fun _ => true, fun _ => 3, fun _ _ => [[1, 2, 3]]⟩ 8 (-1) (-1)
      (fun _ => 0) (fun _ => 0) 10 1 10 none none rfl rfl).2.2 (by decide)⟩

/-! ### Claim C8: the optional actual-length out-parameter -/

/-- Claim C8 (counterexample): `exr_uncompress_buffer_gdeflate` writes
through `actual_out` with no null check, so the call without the
out-parameter crashes (modelled as `none`) instead of behaving like the call
with it, which returns normally. -/
theorem exr_uncompress_buffer_gdeflate_null_crash :
    exr_uncompress_buffer_gdeflate ⟨true, .LIBDEFLATE_SUCCESS, 7, id⟩
        (fun _ => 0) 10 none = none
    ∧ (exr_uncompress_buffer_gdeflate ⟨true, .LIBDEFLATE_SUCCESS, 7, id⟩
        (fun _ => 0) 10 (some 0)).isSome = true :=
  ⟨rfl, rfl⟩

/-- Claim C8 (amended): for `exr_compress_buffer`, `exr_uncompress_buffer`
and `exr_compress_buffer_gdeflate`, omitting the optional out-parameter
leaves the result code and the output buffer unchanged and writes nothing
through the absent cell; `exr_uncompress_buffer_gdeflate` is excluded, since
it dereferences the pointer unconditionally. -/
theorem optional_actual_out_no_effect :
    (∀ (eng : ZlibCompressEngine) (d l : Int) (buf : Nat → Nat) (v : Nat),
        (exr_compress_buffer eng d l buf none).result
            = (exr_compress_buffer eng d l buf (some v)).result
        ∧ (exr_compress_buffer eng d l buf none).buf
            = (exr_compress_buffer eng d l buf (some v)).buf
        ∧ (exr_compress_buffer eng d l buf none).actual_out = none)
    ∧ (∀ (eng : ZlibDecompressEngine) (n : Nat) (buf : Nat → Nat) (v : Nat),
        (exr_uncompress_buffer eng n buf none).result
            = (exr_uncompress_buffer eng n buf (some v)).result
        ∧ (exr_uncompress_buffer eng n buf none).buf
            = (exr_uncompress_buffer eng n buf (some v)).buf
        ∧ (exr_uncompress_buffer eng n buf none).actual_out = none)
    ∧ (∀ (w : Nat) (eng : GdeflateCompressEngine) (d l : Int) (buf : Nat → Nat)
          (cap pc ps : Nat) (v : Nat),
        (exr_compress_buffer_gdeflate w eng d l buf cap pc ps none).result
            = (exr_compress_buffer_gdeflate w eng d l buf cap pc ps (some v)).result
        ∧ (exr_compress_buffer_gdeflate w eng d l buf cap pc ps none).buf
            = (exr_compress_buffer_gdeflate w eng d l buf cap pc ps (some v)).buf
        ∧ (exr_compress_buffer_gdeflate w eng d l buf cap pc ps none).actual_out
            = none) := by
  refine ⟨?_, ?_, ?_⟩
  · intro eng d l buf v
    unfold exr_compress_buffer
    split_ifs <;> simp
  · intro eng n buf v
    unfold exr_uncompress_buffer
    split_ifs <;> simp
  · intro w eng d l buf cap pc ps v
    unfold exr_compress_buffer_gdeflate
    split_ifs <;> simp

/-! ### Claim C9: every returning path releases the engine context -/

/-- Claim C9: each of the four operations produces a balanced context trace
on every execution that returns: either no context was allocated (allocation
failed) or exactly one was allocated and freed, in that order, before
returning.  For `exr_uncompress_buffer_gdeflate` the quantification is over
the executions that return at all (`Option.elim` is trivially true on the
crashing null-pointer execution, which never returns). -/
theorem context_release_balanced :
    (∀ (eng : ZlibCompressEngine) (d l : Int) (buf : Nat → Nat) (ao : Option Nat),
        (exr_compress_buffer eng d l buf ao).trace = []
        ∨ (exr_compress_buffer eng d l buf ao).trace = [.alloc, .free])
    ∧ (∀ (eng : ZlibDecompressEngine) (n : Nat) (buf : Nat → Nat) (ao : Option Nat),
        (exr_uncompress_buffer eng n buf ao).trace = []
        ∨ (exr_uncompress_buffer eng n buf ao).trace = [.alloc, .free])
    ∧ (∀ (w : Nat) (eng : GdeflateCompressEngine) (d l : Int) (buf : Nat → Nat)
          (cap pc ps : Nat) (ao : Option Nat),
        (exr_compress_buffer_gdeflate w eng d l buf cap pc ps ao).trace = []
        ∨ (exr_compress_buffer_gdeflate w eng d l buf cap pc ps ao).trace
            = [.alloc, .free])
    ∧ (∀ (eng : GdeflateDecompressEngine) (buf : Nat → Nat) (n : Nat)
          (ao : Option Nat),
        Option.elim (exr_uncompress_buffer_gdeflate eng buf n ao) True
          (fun r => r.trace = [] ∨ r.trace = [.alloc, .free])) := by
  refine ⟨?_, ?_, ?_, ?_⟩
  · intro eng d l buf ao
    unfold exr_compress_buffer
    split_ifs <;> simp
  · intro eng n buf ao
    unfold exr_uncompress_buffer
    split_ifs <;> simp
  · intro w eng d l buf cap pc ps ao
    unfold exr_compress_buffer_gdeflate
    split_ifs <;> simp
  · intro eng buf n ao
    unfold exr_uncompress_buffer_gdeflate
    split_ifs <;> cases ao <;> simp
